import Mathlib

/-!
Verification of the strategy-comparison harness in `app.py` (RagScope).

The file shallowly embeds the code paths the specification talks about:

* the dispatch loop of `main` (lines 95-109): query validation via
  `str.strip`, the per-model `run(query)["generation"]` loop over the
  registry, and the session-state updates;
* the export block of `main` (lines 127-137): the `export_data` dict,
  `time.strftime("%Y-%m-%d %H:%M:%S")`, and `json.dumps(..., indent=2)`,
  together with a JSON reader modelling `json.loads` on the document
  shapes the exporter produces;
* the memoization decorators `st.cache_data` / `st.cache_resource` on
  `load_data` / `load_models` (modelled at their documented boundary:
  construct on first call, return the stored object afterwards);
* `load_models` (lines 43-52), instrumented with an allocation log so
  that object-identity and construction-count claims are statable;
* `get_random_question` (lines 55-57), with `np.random.randint` modelled
  as a seed-indexed draw from the half-open range.

Python exceptions are modelled with `Except`, `None`-able lookups with
`Option`, and Python dicts with ordered association lists (Python dicts
preserve insertion order).
-/

/-! ### Python string helpers -/

/-- Whitespace characters removed by Python's `str.strip()`: the ASCII
whitespace and separator controls `\x09`-`\x0d`, `\x1c`-`\x1f`, space,
and the Unicode whitespace `\x85`, `\xa0`, `\u1680`, `\u2000`-`\u200a`,
`\u2028`, `\u2029`, `\u202f`, `\u205f`, `\u3000` (the exact set of
codepoints CPython's `str.strip()` removes). -/
def pyWs (c : Char) : Bool :=
  decide (0x09 ≤ c.toNat ∧ c.toNat ≤ 0x0d) ||
  decide (0x1c ≤ c.toNat ∧ c.toNat ≤ 0x1f) ||
  c.toNat == 0x20 || c.toNat == 0x85 || c.toNat == 0xa0 || c.toNat == 0x1680 ||
  decide (0x2000 ≤ c.toNat ∧ c.toNat ≤ 0x200a) ||
  c.toNat == 0x2028 || c.toNat == 0x2029 || c.toNat == 0x202f ||
  c.toNat == 0x205f || c.toNat == 0x3000

/-- Model of Python's `str.strip()`: drop leading and trailing whitespace. -/
def py_strip (s : String) : String :=
  String.mk (((s.data.dropWhile pyWs).reverse.dropWhile pyWs).reverse)

/-! ### JSON values and serialization (model of `json.dumps(export_data, indent=2)`)

`export_data` in `app.py` is a dict whose values are either strings or a
flat dict of strings, so the value model covers exactly those two layers.
Serialization follows CPython's `json.dumps` with its defaults
(`ensure_ascii=True`) and `indent=2`: strings are quoted with `"`, `\`,
the named control escapes, and `\uXXXX` (with surrogate pairs above the
basic plane) applied; objects are rendered one member per line with
two-space nesting. -/

/-- JSON value as produced by the exporter: a string, or a flat object
mapping strategy names to generation strings. -/
inductive JVal where
  | str (s : String)
  | obj (fields : List (String × String))
deriving DecidableEq, Repr

/-- Lowercase hexadecimal digit character, as emitted by `"\u%04x"`. -/
def hexDigitChar (n : Nat) : Char :=
  match n % 16 with
  | 0 => '0' | 1 => '1' | 2 => '2' | 3 => '3' | 4 => '4'
  | 5 => '5' | 6 => '6' | 7 => '7' | 8 => '8' | 9 => '9'
  | 10 => 'a' | 11 => 'b' | 12 => 'c' | 13 => 'd' | 14 => 'e' | _ => 'f'

/-- The four hex digits of a code unit below `0x10000`, most significant first. -/
def hex4Chars (n : Nat) : List Char :=
  [hexDigitChar (n / 4096 % 16), hexDigitChar (n / 256 % 16),
   hexDigitChar (n / 16 % 16), hexDigitChar (n % 16)]

/-- JSON escape of one character, following CPython's
`py_encode_basestring_ascii`: `"` and `\` and the five named control
escapes; every other character outside `0x20`-`0x7E` becomes `\uXXXX`,
as a surrogate pair when above the basic multilingual plane. -/
def escChar (c : Char) : List Char :=
  if c = '"' then ['\\', '"']
  else if c = '\\' then ['\\', '\\']
  else if c = '\x08' then ['\\', 'b']
  else if c = '\t' then ['\\', 't']
  else if c = '\n' then ['\\', 'n']
  else if c = '\x0c' then ['\\', 'f']
  else if c = '\r' then ['\\', 'r']
  else if c.toNat < 0x20 ∨ 0x7E < c.toNat then
    if c.toNat < 0x10000 then
      '\\' :: 'u' :: hex4Chars c.toNat
    else
      '\\' :: 'u' :: hex4Chars (0xD800 + (c.toNat - 0x10000) / 0x400) ++
        '\\' :: 'u' :: hex4Chars (0xDC00 + (c.toNat - 0x10000) % 0x400)
  else [c]

/-- JSON escape of a character sequence. -/
def escList : List Char → List Char
  | [] => []
  | c :: cs => escChar c ++ escList cs

/-- A JSON string literal (opening quote, escaped body, closing quote). -/
def jstrL (s : String) : List Char :=
  '"' :: (escList s.data ++ ['"'])

/-- Indentation for `indent=2` rendering. -/
def spacesL (n : Nat) : List Char :=
  List.replicate n ' '

/-- Members of a flat string-to-string object, one per line at indent `ind`,
separated by `",\n"` as `json.dumps(..., indent=2)` does. -/
def pairsSL (ind : Nat) : List (String × String) → List Char
  | [] => []
  | [(k, v)] => spacesL ind ++ (jstrL k ++ (':' :: ' ' :: jstrL v))
  | (k, v) :: ps =>
    spacesL ind ++ (jstrL k ++ (':' :: ' ' :: (jstrL v ++ (',' :: '\n' :: pairsSL ind ps))))

/-- A flat string-to-string object rendered at indent `ind`: `\x7b\x7d` when
empty, otherwise members on their own lines with the closing brace at the
parent indent. -/
def jobjL (ind : Nat) : List (String × String) → List Char
  | [] => ['\x7b', '\x7d']
  | ps => '\x7b' :: '\n' :: (pairsSL (ind + 2) ps ++ ('\n' :: (spacesL ind ++ ['\x7d'])))

/-- One export value rendered at indent `ind`. -/
def jvalL (ind : Nat) : JVal → List Char
  | JVal.str s => jstrL s
  | JVal.obj ps => jobjL ind ps

/-- Top-level members (values are `JVal`), one per line at indent `ind`. -/
def pairsVL (ind : Nat) : List (String × JVal) → List Char
  | [] => []
  | [(k, v)] => spacesL ind ++ (jstrL k ++ (':' :: ' ' :: jvalL ind v))
  | (k, v) :: ps =>
    spacesL ind ++ (jstrL k ++ (':' :: ' ' :: (jvalL ind v ++ (',' :: '\n' :: pairsVL ind ps))))

/-- Characters of `json.dumps(doc, indent=2)` for a top-level object. -/
def dumpsL (doc : List (String × JVal)) : List Char :=
  match doc with
  | [] => ['\x7b', '\x7d']
  | _ => '\x7b' :: '\n' :: (pairsVL 2 doc ++ ('\n' :: ['\x7d']))

/-- Model of `json.dumps(doc, indent=2)` (the call on line 134 of `app.py`). -/
def dumps (doc : List (String × JVal)) : String :=
  String.mk (dumpsL doc)

/-! ### JSON parsing (model of `json.loads` on the exporter's documents) -/

/-- JSON insignificant whitespace. -/
def jWs (c : Char) : Bool :=
  c == ' ' || c == '\t' || c == '\n' || c == '\r'

/-- Skip insignificant whitespace. -/
def skipWs : List Char → List Char
  | [] => []
  | c :: rest => if jWs c then skipWs rest else c :: rest

/-- Value of one hexadecimal digit (either case accepted, as in JSON). -/
def hexVal (c : Char) : Option Nat :=
  if '0' ≤ c ∧ c ≤ '9' then some (c.toNat - '0'.toNat)
  else if 'a' ≤ c ∧ c ≤ 'f' then some (c.toNat - 'a'.toNat + 10)
  else if 'A' ≤ c ∧ c ≤ 'F' then some (c.toNat - 'A'.toNat + 10)
  else none

/-- Value of a four-hex-digit escape payload. -/
def hex4 (a b c d : Char) : Option Nat :=
  match hexVal a, hexVal b, hexVal c, hexVal d with
  | some va, some vb, some vc, some vd => some (((va * 16 + vb) * 16 + vc) * 16 + vd)
  | _, _, _, _ => none

/-- The single-character JSON escapes. -/
def simpleUnesc : Char → Option Char
  | '"' => some '"'
  | '\\' => some '\\'
  | '/' => some '/'
  | 'b' => some '\x08'
  | 't' => some '\t'
  | 'n' => some '\n'
  | 'f' => some '\x0c'
  | 'r' => some '\r'
  | _ => none

/-- Decode the low-surrogate half `\\uXXXX` that must follow a decoded high
surrogate `n`, recombining the pair into one scalar. -/
def decodeLow (n : Nat) : List Char → Option (Char × List Char)
  | bs :: u2 :: a2 :: b2 :: c2 :: d2 :: rest =>
    if bs = '\\' ∧ u2 = 'u' then
      match hex4 a2 b2 c2 d2 with
      | some m =>
        if 0xDC00 ≤ m ∧ m < 0xE000 then
          some (Char.ofNat (0x10000 + (n - 0xD800) * 0x400 + (m - 0xDC00)), rest)
        else none
      | none => none
    else none
  | _ => none

/-- Decode a `\\u` escape payload: four hex digits, and after a high
surrogate the mandatory low-surrogate escape. -/
def decodeU : List Char → Option (Char × List Char)
  | a :: b :: c :: d :: rest =>
    match hex4 a b c d with
    | none => none
    | some n =>
      if n < 0xD800 ∨ 0xE000 ≤ n then some (Char.ofNat n, rest)
      else if n < 0xDC00 then decodeLow n rest
      else none
  | _ => none

/-- Decode one escape sequence (the input starts just after a backslash). -/
def decodeEsc : List Char → Option (Char × List Char)
  | [] => none
  | e :: rest =>
    if e = 'u' then decodeU rest
    else (simpleUnesc e).map (fun ch => (ch, rest))

/-- A decoded low surrogate consumes input. -/
theorem decodeLow_length {n : Nat} {l r : List Char} {ch : Char}
    (h : decodeLow n l = some (ch, r)) : r.length < l.length := by
  rcases l with _ | ⟨bs, _ | ⟨u2, _ | ⟨a2, _ | ⟨b2, _ | ⟨c2, _ | ⟨d2, rest⟩⟩⟩⟩⟩⟩
  · simp [decodeLow] at h
  · simp [decodeLow] at h
  · simp [decodeLow] at h
  · simp [decodeLow] at h
  · simp [decodeLow] at h
  · simp [decodeLow] at h
  · simp only [decodeLow] at h
    split at h
    · split at h
      · split at h
        · simp only [Option.some.injEq, Prod.mk.injEq] at h
          obtain ⟨h3, h4⟩ := h
          subst h4
          simp
          omega
        · simp at h
      · simp at h
    · simp at h

/-- A decoded `\\u` payload consumes input. -/
theorem decodeU_length {l r : List Char} {ch : Char}
    (h : decodeU l = some (ch, r)) : r.length < l.length := by
  rcases l with _ | ⟨a, _ | ⟨b, _ | ⟨c, _ | ⟨d, rest⟩⟩⟩⟩
  · simp [decodeU] at h
  · simp [decodeU] at h
  · simp [decodeU] at h
  · simp [decodeU] at h
  · simp only [decodeU] at h
    split at h
    · simp at h
    · split at h
      · simp only [Option.some.injEq, Prod.mk.injEq] at h
        obtain ⟨h3, h4⟩ := h
        subst h4
        simp
        omega
      · split at h
        · have := decodeLow_length h
          simp
          omega
        · simp at h

/-- The remaining input after a decoded escape is strictly shorter. -/
theorem decodeEsc_length {l r : List Char} {ch : Char} (h : decodeEsc l = some (ch, r)) :
    r.length < l.length := by
  rcases l with _ | ⟨e, rest⟩
  · simp [decodeEsc] at h
  · simp only [decodeEsc] at h
    split at h
    · have := decodeU_length h
      simp
      omega
    · rcases hs : simpleUnesc e with _ | ch2 <;> rw [hs] at h
      · simp at h
      · simp only [Option.map_eq_some', Option.some.injEq, Prod.mk.injEq] at h ⊢
        obtain ⟨c2, hc2, hch, hr⟩ := h
        subst hr
        simp

/-- Parse a JSON string body after the opening quote, returning the decoded
characters and the input following the closing quote. -/
def pStrBody (l : List Char) : Option (List Char × List Char) :=
  match l with
  | [] => none
  | c :: rest =>
    if c = '"' then some ([], rest)
    else if c = '\\' then
      match hdec : decodeEsc rest with
      | some (ch, rest2) => (pStrBody rest2).map (fun p => (ch :: p.1, p.2))
      | none => none
    else (pStrBody rest).map (fun p => (c :: p.1, p.2))
termination_by l.length
decreasing_by
  · have := decodeEsc_length hdec
    simp
    omega
  · simp

/-- Parse a JSON string token (whitespace, then a quoted string literal). -/
def pStringTok (l : List Char) : Option (String × List Char) :=
  match skipWs l with
  | [] => none
  | c :: rest =>
    if c = '"' then (pStrBody rest).map (fun p => (String.mk p.1, p.2)) else none

/-- Parse the members of a flat string-to-string object after the opening
brace, up to and including the closing brace. `fuel` bounds the member
count; callers pass the input length. -/
def pPairsS : Nat → List Char → Option (List (String × String) × List Char)
  | 0, _ => none
  | fuel + 1, l =>
    match pStringTok l with
    | none => none
    | some (k, r1) =>
      match skipWs r1 with
      | [] => none
      | c1 :: r2 =>
        if c1 = ':' then
          match pStringTok r2 with
          | none => none
          | some (v, r3) =>
            match skipWs r3 with
            | [] => none
            | c2 :: r4 =>
              if c2 = ',' then
                match pPairsS fuel r4 with
                | some (ps, r5) => some ((k, v) :: ps, r5)
                | none => none
              else if c2 = '\x7d' then some ([(k, v)], r4)
              else none
        else none

/-- Parse one export value: a string literal or a flat object. -/
def pJVal (fuel : Nat) (l : List Char) : Option (JVal × List Char) :=
  match skipWs l with
  | [] => none
  | c :: rest =>
    if c = '"' then (pStrBody rest).map (fun p => (JVal.str (String.mk p.1), p.2))
    else if c = '\x7b' then
      match skipWs rest with
      | [] => none
      | c2 :: r2 =>
        if c2 = '\x7d' then some (JVal.obj [], r2)
        else (pPairsS fuel rest).map (fun p => (JVal.obj p.1, p.2))
    else none

/-- Parse the members of the top-level object after the opening brace, up to
and including the closing brace. -/
def pPairsV : Nat → List Char → Option (List (String × JVal) × List Char)
  | 0, _ => none
  | fuel + 1, l =>
    match pStringTok l with
    | none => none
    | some (k, r1) =>
      match skipWs r1 with
      | [] => none
      | c1 :: r2 =>
        if c1 = ':' then
          match pJVal fuel r2 with
          | none => none
          | some (v, r3) =>
            match skipWs r3 with
            | [] => none
            | c2 :: r4 =>
              if c2 = ',' then
                match pPairsV fuel r4 with
                | some (ps, r5) => some ((k, v) :: ps, r5)
                | none => none
              else if c2 = '\x7d' then some ([(k, v)], r4)
              else none
        else none

/-- Model of `json.loads` restricted to the document shapes the exporter
emits: a top-level object whose values are strings or flat string
objects, with nothing but whitespace allowed after it. -/
def loads (s : String) : Option (List (String × JVal)) :=
  match skipWs s.data with
  | [] => none
  | c :: r =>
    if c = '\x7b' then
      match skipWs r with
      | [] => none
      | c2 :: r2 =>
        if c2 = '\x7d' then (if skipWs r2 = [] then some [] else none)
        else
          match pPairsV s.data.length r with
          | some (ps, rest) => if skipWs rest = [] then some ps else none
          | none => none
    else none

/-- Fuel consumed by one export value: the member count of a flat object. -/
def vSize : JVal → Nat
  | JVal.str _ => 0
  | JVal.obj ps => ps.length

/-- Fuel consumed by a top-level document: one unit per member plus the
members' own needs. -/
def docSize : List (String × JVal) → Nat
  | [] => 0
  | (_, v) :: ps => 1 + vSize v + docSize ps

/-! ### Timestamp formatting and the export record (lines 127-137) -/

/-- The broken-down time `time.strftime` formats. -/
structure Tm where
  tm_year : Nat
  tm_mon : Nat
  tm_mday : Nat
  tm_hour : Nat
  tm_min : Nat
  tm_sec : Nat
deriving DecidableEq, Repr

/-- One decimal digit character. -/
def digitChar (n : Nat) : Char :=
  match n % 10 with
  | 0 => '0' | 1 => '1' | 2 => '2' | 3 => '3' | 4 => '4'
  | 5 => '5' | 6 => '6' | 7 => '7' | 8 => '8' | _ => '9'

/-- Decimal digit characters of `n`, most significant first. -/
def natDigits (n : Nat) : List Char :=
  if h : n < 10 then [digitChar n]
  else natDigits (n / 10) ++ [digitChar (n % 10)]
termination_by n
decreasing_by simp_wf; omega

/-- Decimal rendering of a natural number. -/
def natStr (n : Nat) : String :=
  String.mk (natDigits n)

/-- Zero-padded two-digit field (`%m`, `%d`, `%H`, `%M`, `%S`). -/
def two_digit (n : Nat) : String :=
  if n < 10 then "0" ++ natStr n else natStr n

/-- Zero-padded four-digit year field (`%Y`). -/
def four_digit (n : Nat) : String :=
  if n < 10 then "000" ++ natStr n
  else if n < 100 then "00" ++ natStr n
  else if n < 1000 then "0" ++ natStr n
  else natStr n

/-- Model of `time.strftime("%Y-%m-%d %H:%M:%S")` (line 130 of `app.py`). -/
def strftime_Y_m_d_H_M_S (t : Tm) : String :=
  four_digit t.tm_year ++ "-" ++ two_digit t.tm_mon ++ "-" ++ two_digit t.tm_mday ++ " " ++
    two_digit t.tm_hour ++ ":" ++ two_digit t.tm_min ++ ":" ++ two_digit t.tm_sec

/-- The `export_data` dict built on lines 127-131: the timestamp is captured
here, from the build-time clock value `t`, not during serialization. -/
def export_data (query : String) (results : List (String × String)) (t : Tm) :
    List (String × JVal) :=
  [("query", JVal.str query),
   ("results", JVal.obj results),
   ("timestamp", JVal.str (strftime_Y_m_d_H_M_S t))]

/-- Serialization of the export record, line 134: `json.dumps(export_data, indent=2)`.
It is a pure function of the record; no clock is consulted here. -/
def serialize_export (doc : List (String × JVal)) : String :=
  dumps doc

/-! ### The dispatcher (lines 95-109 of `main`) -/

/-- Errors the dispatch path can surface: the empty-query rejection of line
96-97, a `KeyError` from `run(query)["generation"]`, or an arbitrary
exception raised inside a strategy's `run`. -/
inductive Err where
  | invalidQuery : Err
  | keyError (key : String) : Err
  | exc (msg : String) : Err
deriving DecidableEq, Repr

/-- A Python dict with string values, as returned by `run`. -/
abbrev PyDict := List (String × String)

/-- The strategy contract of `BaseRAG`: `run` returns a dict that should
carry a `generation` key, or raises. -/
structure Strategy where
  run : String → Except Err PyDict

/-- The subscript `d["generation"]` of line 105: `KeyError` when absent. -/
def getGeneration (d : PyDict) : Except Err String :=
  match d.lookup "generation" with
  | some g => Except.ok g
  | none => Except.error (Err.keyError "generation")

/-- The `for model_name, model in models.items()` loop of lines 103-106.
The first component is the `results` dict handed to the session state on
success, or the first exception raised; the second component is the
invocation trace, recording each `run` call made together with the exact
argument it received (instrumentation for the no-invocation and
untrimmed-argument claims). -/
def dispatchRun (query : String) : List (String × Strategy) →
    Except Err (List (String × String)) × List (String × String)
  | [] => (Except.ok [], [])
  | (name, m) :: rest =>
    match m.run query with
    | Except.error e => (Except.error e, [(name, query)])
    | Except.ok d =>
      match getGeneration d with
      | Except.error e => (Except.error e, [(name, query)])
      | Except.ok g =>
        match dispatchRun query rest with
        | (Except.ok tail, tr) => (Except.ok ((name, g) :: tail), (name, query) :: tr)
        | (Except.error e, tr) => (Except.error e, (name, query) :: tr)

/-- The dispatch operation of lines 96-106: reject a query that is empty
after stripping (running no strategy), otherwise run the loop. -/
def dispatch (query : String) (registry : List (String × Strategy)) :
    Except Err (List (String × String)) × List (String × String) :=
  if py_strip query = "" then (Except.error Err.invalidQuery, [])
  else dispatchRun query registry

/-- The `st.session_state` fields the dispatch block touches. -/
structure SessionState where
  user_input : Option String
  results : Option (List (String × String))
  query : Option String
deriving DecidableEq, Repr

/-- The whole button handler, lines 95-109: on a blank query only an error
message is shown (state untouched); otherwise `user_input` is stored
first (line 99), then the loop runs; only if every strategy succeeded are
`results` and `query` stored (lines 108-109) — an exception leaves them
as they were. -/
def run_all_models (user_query : String) (models : List (String × Strategy))
    (s : SessionState) : SessionState × Except Err (List (String × String)) :=
  if py_strip user_query = "" then (s, Except.error Err.invalidQuery)
  else
    match dispatchRun user_query models with
    | (Except.error e, _) =>
      ({ s with user_input := some user_query }, Except.error e)
    | (Except.ok rs, _) =>
      ({ s with user_input := some user_query, results := some rs, query := some user_query },
        Except.ok rs)

/-- A test double honouring the strategy contract: `run` returns a dict
whose `generation` entry is the fixed string `g`. -/
def okStrategy (g : String) : Strategy :=
  ⟨fun _ => Except.ok [("generation", g)]⟩

/-- A test double whose `run` raises. -/
def failStrategy (e : Err) : Strategy :=
  ⟨fun _ => Except.error e⟩

/-- A three-strategy registry of honest stubs, for concrete checks. -/
def demo_registry : List (String × Strategy) :=
  [("A", okStrategy "alpha"), ("B", okStrategy "beta"), ("C", okStrategy "gamma")]

/-- A fresh session state. -/
def demo_state : SessionState :=
  ⟨none, none, none⟩

/-! ### Process-wide memoization (`@st.cache_data` on line 25, `@st.cache_resource`
on line 43), modelled at Streamlit's documented boundary: the first call
runs the wrapped constructor and stores the result; later calls return
the stored object without running the constructor. -/

/-- The cache cell for one wrapped function, with a counter of how many
times the underlying constructor actually ran. -/
structure CacheState (α : Type) where
  cached : Option α
  constructions : Nat

/-- A cold cache (process start). -/
def cache_init {α : Type} : CacheState α :=
  ⟨none, 0⟩

/-- One call through the memoizing wrapper. -/
def cache_call {α : Type} (construct : Unit → α) (s : CacheState α) : α × CacheState α :=
  match s.cached with
  | some v => (v, s)
  | none =>
    let v := construct ()
    (v, ⟨some v, s.constructions + 1⟩)

/-! ### Registry construction (`load_models`, lines 43-52)

The flow classes themselves (`BasicFlow`, `CragFlow`, `AdaptiveFlow`,
`SelfFlow`, `PineConeHandler`) are external collaborators; here only
their construction wiring matters. Each constructed object carries an
`objId` drawn from an allocation log, so "the same instance" is statable
as equality of the stored values, and the log records how many objects of
each kind were constructed. -/

/-- The Pinecone index client wrapper constructed on line 45. -/
structure PineConeHandler where
  index_name : String
  objId : Nat
deriving DecidableEq, Repr

/-- `BasicFlow(pinecone_handler=...)`, line 48. -/
structure BasicFlow where
  pinecone_handler : PineConeHandler
  objId : Nat
deriving DecidableEq, Repr

/-- `CragFlow(pinecone_handler=...)`, line 49. -/
structure CragFlow where
  pinecone_handler : PineConeHandler
  objId : Nat
deriving DecidableEq, Repr

/-- `SelfFlow(pinecone_handler=...)`, line 46. -/
structure SelfFlow where
  pinecone_handler : PineConeHandler
  objId : Nat
deriving DecidableEq, Repr

/-- `AdaptiveFlow(self_rag)`, line 50: wraps a `SelfFlow` instance. -/
structure AdaptiveFlow where
  self_rag : SelfFlow
  objId : Nat
deriving DecidableEq, Repr

/-- A registry entry: one of the four constructed strategy objects. -/
inductive Model where
  | basic (f : BasicFlow)
  | crag (f : CragFlow)
  | adaptive (f : AdaptiveFlow)
  | selfRag (f : SelfFlow)
deriving DecidableEq, Repr

/-- The body of `load_models` (lines 44-52), threading an allocation log:
one `PineConeHandler`, one `SelfFlow`, then the registry dict in its
literal order, constructing `BasicFlow`, `CragFlow` and `AdaptiveFlow`
as the dict is built and reusing `self_rag` for the last entry. -/
def load_models_impl (log0 : List String) : List (String × Model) × List String :=
  let hId := log0.length
  let log1 := log0 ++ ["PineConeHandler"]
  let pinecone_handler : PineConeHandler := ⟨"clgevents", hId⟩
  let sRagId := log1.length
  let log2 := log1 ++ ["SelfFlow"]
  let self_rag : SelfFlow := ⟨pinecone_handler, sRagId⟩
  let bId := log2.length
  let log3 := log2 ++ ["BasicFlow"]
  let cId := log3.length
  let log4 := log3 ++ ["CragFlow"]
  let aId := log4.length
  let log5 := log4 ++ ["AdaptiveFlow"]
  ([("BasicRAG", Model.basic ⟨pinecone_handler, bId⟩),
    ("CRAG", Model.crag ⟨pinecone_handler, cId⟩),
    ("AdaptiveRAG", Model.adaptive ⟨self_rag, aId⟩),
    ("SelfRAG", Model.selfRag self_rag)], log5)

/-- The cached registry accessor (`load_models` behind `@st.cache_resource`). -/
def get_registry (s : CacheState (List (String × Model) × List String)) :
    (List (String × Model) × List String) × CacheState (List (String × Model) × List String) :=
  cache_call (fun _ => load_models_impl []) s

/-! ### Random sampling (`get_random_question`, lines 55-57) -/

/-- A dataset row; the sampler reads only the `Question` column. -/
structure Row where
  Question : String
deriving DecidableEq, Repr

/-- Model of `np.random.randint(lo, hi)`: a draw from `[lo, hi)` indexed by
an abstract seed; numpy raises `ValueError` when the range is empty. -/
def np_random_randint (lo hi seed : Nat) : Option Nat :=
  if lo < hi then some (lo + seed % (hi - lo)) else none

/-- `get_random_question` (lines 55-57): draw `idx` from `[0, len(dataset))`
and return the `Question` of row `idx` together with `idx`. -/
def get_random_question (dataset : List Row) (seed : Nat) : Option (String × Nat) :=
  match np_random_randint 0 dataset.length seed with
  | none => none
  | some idx =>
    match dataset.get? idx with
    | some row => some (row.Question, idx)
    | none => none

/-! ### Lemmas: the string escape codec -/

/-- Reading back an emitted hex digit recovers its value. -/
theorem hexVal_hexDigitChar : ∀ m, m < 16 → hexVal (hexDigitChar m) = some m := by decide

/-- Reading back the four emitted hex digits of `n < 0x10000` recovers `n`. -/
theorem hex4_hex4Chars (n : Nat) (h : n < 0x10000) :
    hex4 (hexDigitChar (n / 4096 % 16)) (hexDigitChar (n / 256 % 16))
      (hexDigitChar (n / 16 % 16)) (hexDigitChar (n % 16)) = some n := by
  have h16 : ∀ k : Nat, k % 16 < 16 := fun k => Nat.mod_lt _ (by omega)
  rw [hex4, hexVal_hexDigitChar _ (h16 _), hexVal_hexDigitChar _ (h16 _),
    hexVal_hexDigitChar _ (h16 _), hexVal_hexDigitChar _ (h16 _)]
  have harith : ((n / 4096 % 16 * 16 + n / 256 % 16) * 16 + n / 16 % 16) * 16 + n % 16 = n := by
    omega
  simp [harith]

/-- The scalar-value ranges every `Char` satisfies. -/
theorem char_valid_nat (c : Char) :
    c.toNat < 0xD800 ∨ (0xE000 ≤ c.toNat ∧ c.toNat < 0x110000) := c.valid

/-- A closing quote ends the string body. -/
theorem pStrBody_quote (l : List Char) : pStrBody ('"' :: l) = some ([], l) := by
  rw [pStrBody]
  simp

/-- A backslash hands over to the escape decoder. -/
theorem pStrBody_backslash (t : List Char) :
    pStrBody ('\\' :: t) =
      match decodeEsc t with
      | some (ch, rest2) => (pStrBody rest2).map (fun p => (ch :: p.1, p.2))
      | none => none := by
  have hne : ¬('\\' : Char) = '"' := by decide
  rw [pStrBody, if_neg hne, if_pos rfl]
  split
  · rename_i ch rest2 hd
    rw [hd]
  · rename_i hd
    rw [hd]

/-- An unescaped character other than `"` and `\` is taken literally. -/
theorem pStrBody_plain (c : Char) (l : List Char) (h1 : ¬c = '"') (h2 : ¬c = '\\') :
    pStrBody (c :: l) = (pStrBody l).map (fun p => (c :: p.1, p.2)) := by
  rw [pStrBody]
  simp [h1, h2]

/-- Decoding a non-`u` escape is `simpleUnesc`. -/
theorem decodeEsc_simple (x ch : Char) (l : List Char) (hx : ¬x = 'u')
    (hs : simpleUnesc x = some ch) : decodeEsc (x :: l) = some (ch, l) := by
  simp only [decodeEsc]
  rw [if_neg hx, hs]
  rfl

/-- Decoding a `u` escape is `decodeU`. -/
theorem decodeEsc_u (t : List Char) : decodeEsc ('u' :: t) = decodeU t := by
  simp [decodeEsc]

/-- Decoding the emitted digits of a basic-plane scalar recovers it. -/
theorem decodeU_bmp (n : Nat) (l : List Char) (h : n < 0x10000)
    (hrng : n < 0xD800 ∨ 0xE000 ≤ n) :
    decodeU (hex4Chars n ++ l) = some (Char.ofNat n, l) := by
  simp only [hex4Chars, List.cons_append, List.nil_append]
  simp only [decodeU]
  rw [hex4_hex4Chars n h]
  simp [hrng]

/-- Decoding an emitted surrogate pair recovers the combined scalar. -/
theorem decodeU_pair (hi lo : Nat) (l : List Char) (hhi1 : 0xD800 ≤ hi) (hhi2 : hi < 0xDC00)
    (hlo1 : 0xDC00 ≤ lo) (hlo2 : lo < 0xE000) :
    decodeU (hex4Chars hi ++ ('\\' :: 'u' :: (hex4Chars lo ++ l))) =
      some (Char.ofNat (0x10000 + (hi - 0xD800) * 0x400 + (lo - 0xDC00)), l) := by
  have hno : ¬(hi < 0xD800 ∨ 0xE000 ≤ hi) := by omega
  have hlo3 : 0xDC00 ≤ lo ∧ lo < 0xE000 := ⟨hlo1, hlo2⟩
  simp only [hex4Chars, List.cons_append, List.nil_append]
  simp only [decodeU]
  rw [hex4_hex4Chars hi (by omega)]
  simp [hno, hhi2]
  simp only [decodeLow]
  rw [hex4_hex4Chars lo (by omega)]
  simp [hlo3]

/-- Parsing one escaped character undoes `escChar` and continues. -/
theorem pStrBody_escChar (c : Char) (l : List Char) :
    pStrBody (escChar c ++ l) = (pStrBody l).map (fun p => (c :: p.1, p.2)) := by
  by_cases h1 : c = '"'
  · subst h1
    rw [show escChar '"' ++ l = '\\' :: '"' :: l from rfl, pStrBody_backslash,
      decodeEsc_simple '"' '"' l (by decide) rfl]
  by_cases h2 : c = '\\'
  · subst h2
    rw [show escChar '\\' ++ l = '\\' :: '\\' :: l from rfl, pStrBody_backslash,
      decodeEsc_simple '\\' '\\' l (by decide) rfl]
  by_cases h3 : c = '\x08'
  · subst h3
    rw [show escChar '\x08' ++ l = '\\' :: 'b' :: l from rfl, pStrBody_backslash,
      decodeEsc_simple 'b' '\x08' l (by decide) rfl]
  by_cases h4 : c = '\t'
  · subst h4
    rw [show escChar '\t' ++ l = '\\' :: 't' :: l from rfl, pStrBody_backslash,
      decodeEsc_simple 't' '\t' l (by decide) rfl]
  by_cases h5 : c = '\n'
  · subst h5
    rw [show escChar '\n' ++ l = '\\' :: 'n' :: l from rfl, pStrBody_backslash,
      decodeEsc_simple 'n' '\n' l (by decide) rfl]
  by_cases h6 : c = '\x0c'
  · subst h6
    rw [show escChar '\x0c' ++ l = '\\' :: 'f' :: l from rfl, pStrBody_backslash,
      decodeEsc_simple 'f' '\x0c' l (by decide) rfl]
  by_cases h7 : c = '\r'
  · subst h7
    rw [show escChar '\r' ++ l = '\\' :: 'r' :: l from rfl, pStrBody_backslash,
      decodeEsc_simple 'r' '\r' l (by decide) rfl]
  by_cases h8 : c.toNat < 0x20 ∨ 0x7E < c.toNat
  · by_cases h9 : c.toNat < 0x10000
    · have hrng : c.toNat < 0xD800 ∨ 0xE000 ≤ c.toNat := by
        rcases char_valid_nat c with hv | ⟨hv, _⟩
        · exact Or.inl hv
        · exact Or.inr hv
      have he : escChar c ++ l = '\\' :: 'u' :: (hex4Chars c.toNat ++ l) := by
        rw [escChar, if_neg h1, if_neg h2, if_neg h3, if_neg h4, if_neg h5, if_neg h6,
          if_neg h7, if_pos h8, if_pos h9]
        simp
      rw [he, pStrBody_backslash, decodeEsc_u, decodeU_bmp c.toNat l h9 hrng]
      rw [Char.ofNat_toNat]
    · have hlt : c.toNat < 0x110000 := by
        rcases char_valid_nat c with hv | ⟨_, hv⟩
        · omega
        · exact hv
      have hqlt : (c.toNat - 0x10000) / 0x400 < 0x400 := by omega
      have hrlt : (c.toNat - 0x10000) % 0x400 < 0x400 := Nat.mod_lt _ (by omega)
      have he : escChar c ++ l =
          '\\' :: 'u' :: (hex4Chars (0xD800 + (c.toNat - 0x10000) / 0x400) ++
            ('\\' :: 'u' :: (hex4Chars (0xDC00 + (c.toNat - 0x10000) % 0x400) ++ l))) := by
        rw [escChar, if_neg h1, if_neg h2, if_neg h3, if_neg h4, if_neg h5, if_neg h6,
          if_neg h7, if_pos h8, if_neg h9]
        simp
      rw [he, pStrBody_backslash, decodeEsc_u,
        decodeU_pair _ _ l (by omega) (by omega) (by omega) (by omega)]
      have hcomb : 0x10000 + (0xD800 + (c.toNat - 0x10000) / 0x400 - 0xD800) * 0x400 +
          (0xDC00 + (c.toNat - 0x10000) % 0x400 - 0xDC00) = c.toNat := by omega
      rw [hcomb, Char.ofNat_toNat]
  · have he : escChar c ++ l = c :: l := by
      rw [escChar, if_neg h1, if_neg h2, if_neg h3, if_neg h4, if_neg h5, if_neg h6,
        if_neg h7, if_neg h8]
      simp
    rw [he, pStrBody_plain c l h1 h2]

/-- Parsing an escaped run stops exactly at the closing quote. -/
theorem pStrBody_escList (cs : List Char) : ∀ l : List Char,
    pStrBody (escList cs ++ ('"' :: l)) = some (cs, l) := by
  induction cs with
  | nil =>
    intro l
    simp only [escList, List.nil_append]
    exact pStrBody_quote l
  | cons c cs ih =>
    intro l
    rw [escList, List.append_assoc, pStrBody_escChar, ih]
    rfl

/-- Whitespace skipping ignores a non-whitespace head. -/
theorem skipWs_cons_not {c : Char} (l : List Char) (h : jWs c = false) :
    skipWs (c :: l) = c :: l := by
  rw [skipWs, h]
  rfl

/-- Whitespace skipping drops a whitespace head. -/
theorem skipWs_cons_ws {c : Char} (l : List Char) (h : jWs c = true) :
    skipWs (c :: l) = skipWs l := by
  rw [skipWs, h]
  rfl

/-- Whitespace skipping drops an indentation prefix. -/
theorem skipWs_spacesL (n : Nat) (l : List Char) : skipWs (spacesL n ++ l) = skipWs l := by
  induction n with
  | zero => rfl
  | succ k ih =>
    rw [spacesL, List.replicate_succ, List.cons_append, skipWs_cons_ws _ (by decide)]
    exact ih

/-- A rendered string literal tokenizes to itself. -/
theorem pStringTok_jstrL (s : String) (l : List Char) :
    pStringTok (jstrL s ++ l) = some (s, l) := by
  rw [jstrL, List.cons_append, List.append_assoc, List.cons_append, List.nil_append]
  rw [pStringTok, skipWs_cons_not _ (by decide)]
  simp [pStrBody_escList]

/-- String tokenization ignores a leading whitespace character. -/
theorem pStringTok_cons_ws {c : Char} (l : List Char) (h : jWs c = true) :
    pStringTok (c :: l) = pStringTok l := by
  rw [pStringTok, skipWs_cons_ws _ h, pStringTok]

/-- String tokenization ignores leading indentation. -/
theorem pStringTok_spacesL (n : Nat) (l : List Char) :
    pStringTok (spacesL n ++ l) = pStringTok l := by
  rw [pStringTok, skipWs_spacesL, pStringTok]

/-- A rendered string literal behind indentation tokenizes to itself. -/
theorem pStringTok_ind_jstrL (n : Nat) (s : String) (l : List Char) :
    pStringTok (spacesL n ++ (jstrL s ++ l)) = some (s, l) := by
  rw [pStringTok_spacesL, pStringTok_jstrL]

/-- Structural characters are not whitespace. -/
theorem skipWs_quote (l : List Char) : skipWs ('"' :: l) = '"' :: l :=
  skipWs_cons_not l (by decide)

/-- A colon stops whitespace skipping. -/
theorem skipWs_colon (l : List Char) : skipWs (':' :: l) = ':' :: l :=
  skipWs_cons_not l (by decide)

/-- A comma stops whitespace skipping. -/
theorem skipWs_comma (l : List Char) : skipWs (',' :: l) = ',' :: l :=
  skipWs_cons_not l (by decide)

/-- A closing brace stops whitespace skipping. -/
theorem skipWs_rbrace (l : List Char) : skipWs ('\x7d' :: l) = '\x7d' :: l :=
  skipWs_cons_not l (by decide)

/-- An opening brace stops whitespace skipping. -/
theorem skipWs_lbrace (l : List Char) : skipWs ('\x7b' :: l) = '\x7b' :: l :=
  skipWs_cons_not l (by decide)

/-- A newline is skipped. -/
theorem skipWs_nl (l : List Char) : skipWs ('\n' :: l) = skipWs l :=
  skipWs_cons_ws l (by decide)

/-- A space is skipped. -/
theorem skipWs_sp (l : List Char) : skipWs (' ' :: l) = skipWs l :=
  skipWs_cons_ws l (by decide)

/-- String tokenization ignores a leading space. -/
theorem pStringTok_sp (l : List Char) : pStringTok (' ' :: l) = pStringTok l := by
  rw [pStringTok, skipWs_sp, pStringTok]

/-- String tokenization ignores a leading newline. -/
theorem pStringTok_nl (l : List Char) : pStringTok ('\n' :: l) = pStringTok l := by
  rw [pStringTok, skipWs_nl, pStringTok]

/-- Flat-object member parsing ignores a leading newline. -/
theorem pPairsS_nl (fuel : Nat) (l : List Char) : pPairsS fuel ('\n' :: l) = pPairsS fuel l := by
  cases fuel with
  | zero => rfl
  | succ f =>
    simp only [pPairsS]
    rw [pStringTok_nl]

/-- Top-level member parsing ignores a leading newline. -/
theorem pPairsV_nl (fuel : Nat) (l : List Char) : pPairsV fuel ('\n' :: l) = pPairsV fuel l := by
  cases fuel with
  | zero => rfl
  | succ f =>
    simp only [pPairsV]
    rw [pStringTok_nl]

/-- A rendered nonempty member list starts, after whitespace, with a quote. -/
theorem pairsSL_head (ind : Nat) (k v : String) (ps : List (String × String)) (t : List Char) :
    ∃ z, skipWs (pairsSL ind ((k, v) :: ps) ++ t) = '"' :: z := by
  rcases ps with _ | ⟨p2, ps2⟩
  · simp only [pairsSL, List.append_assoc, jstrL, List.cons_append]
    rw [skipWs_spacesL, skipWs_quote]
    exact ⟨_, rfl⟩
  · simp only [pairsSL, List.append_assoc, jstrL, List.cons_append]
    rw [skipWs_spacesL, skipWs_quote]
    exact ⟨_, rfl⟩

/-- A rendered nonempty top-level member list starts, after whitespace, with a quote. -/
theorem pairsVL_head (ind : Nat) (k : String) (v : JVal) (ps : List (String × JVal))
    (t : List Char) : ∃ z, skipWs (pairsVL ind ((k, v) :: ps) ++ t) = '"' :: z := by
  rcases ps with _ | ⟨p2, ps2⟩
  · simp only [pairsVL, List.append_assoc, jstrL, List.cons_append]
    rw [skipWs_spacesL, skipWs_quote]
    exact ⟨_, rfl⟩
  · simp only [pairsVL, List.append_assoc, jstrL, List.cons_append]
    rw [skipWs_spacesL, skipWs_quote]
    exact ⟨_, rfl⟩

/-- Parsing a rendered nonempty flat member list recovers it, consuming the
newline, closing indentation and closing brace that follow. -/
theorem pPairsS_round (ind clos : Nat) : ∀ (ps : List (String × String)),
    ∀ (l : List Char) (fuel : Nat), ps ≠ [] → ps.length ≤ fuel →
    pPairsS fuel (pairsSL ind ps ++ ('\n' :: (spacesL clos ++ ('\x7d' :: l)))) = some (ps, l) := by
  intro ps
  induction ps with
  | nil => intro l fuel h _; exact absurd rfl h
  | cons p ps ih =>
    intro l fuel _ hfuel
    rcases p with ⟨k, v⟩
    rcases fuel with _ | f
    · simp at hfuel
    rcases ps with _ | ⟨p2, ps2⟩
    · simp only [pairsSL, List.append_assoc, List.cons_append, pPairsS,
        pStringTok_ind_jstrL, skipWs_colon, pStringTok_sp, pStringTok_jstrL,
        skipWs_nl, skipWs_spacesL, skipWs_rbrace]
      simp
    · simp only [pairsSL, List.append_assoc, List.cons_append, pPairsS,
        pStringTok_ind_jstrL, skipWs_colon, pStringTok_sp, pStringTok_jstrL,
        skipWs_comma, pPairsS_nl]
      rw [ih l f (by simp) (by simpa using hfuel)]
      simp

/-- Value parsing ignores a leading space. -/
theorem pJVal_sp (fuel : Nat) (l : List Char) : pJVal fuel (' ' :: l) = pJVal fuel l := by
  rw [pJVal, skipWs_sp, pJVal]

/-- A rendered string value parses to itself. -/
theorem pJVal_str (fuel : Nat) (s : String) (t : List Char) :
    pJVal fuel (jstrL s ++ t) = some (JVal.str s, t) := by
  rw [jstrL, List.cons_append, List.append_assoc, List.cons_append, List.nil_append]
  rw [pJVal, skipWs_quote]
  simp [pStrBody_escList]

/-- A rendered empty object value parses to itself. -/
theorem pJVal_obj_nil (ind fuel : Nat) (t : List Char) :
    pJVal fuel (jvalL ind (JVal.obj []) ++ t) = some (JVal.obj [], t) := by
  simp only [jvalL, jobjL, List.cons_append, List.nil_append]
  rw [pJVal, skipWs_lbrace]
  simp [skipWs_rbrace]

/-- Value parsing after an opening brace: empty object or member list. -/
theorem pJVal_lbrace (fuel : Nat) (x : List Char) :
    pJVal fuel ('\x7b' :: x) =
      match skipWs x with
      | [] => none
      | c2 :: r2 =>
        if c2 = '\x7d' then some (JVal.obj [], r2)
        else (pPairsS fuel x).map (fun p => (JVal.obj p.1, p.2)) := by
  rw [pJVal, skipWs_lbrace]
  simp

/-- A rendered nonempty object value parses to itself. -/
theorem pJVal_obj_cons (ind fuel : Nat) (p : String × String) (ps : List (String × String))
    (t : List Char) (hfuel : (p :: ps).length ≤ fuel) :
    pJVal fuel (jvalL ind (JVal.obj (p :: ps)) ++ t) = some (JVal.obj (p :: ps), t) := by
  rcases p with ⟨k, v⟩
  simp only [jvalL, jobjL, List.cons_append, List.append_assoc, List.nil_append]
  rw [pJVal_lbrace]
  obtain ⟨z, hz⟩ := pairsSL_head (ind + 2) k v ps ('\n' :: (spacesL ind ++ ('\x7d' :: t)))
  have hrest : pPairsS fuel
      ('\n' :: (pairsSL (ind + 2) ((k, v) :: ps) ++ ('\n' :: (spacesL ind ++ ('\x7d' :: t))))) =
      some ((k, v) :: ps, t) := by
    rw [pPairsS_nl]
    exact pPairsS_round (ind + 2) ind ((k, v) :: ps) t fuel (by simp) hfuel
  rw [skipWs_nl, hz]
  simp [hrest]

/-- A rendered export value parses to itself when the fuel covers it. -/
theorem pJVal_jvalL (ind fuel : Nat) (v : JVal) (t : List Char) (hfuel : vSize v ≤ fuel) :
    pJVal fuel (jvalL ind v ++ t) = some (v, t) := by
  rcases v with s | ps
  · exact pJVal_str fuel s t
  · rcases ps with _ | ⟨p, ps⟩
    · exact pJVal_obj_nil ind fuel t
    · exact pJVal_obj_cons ind fuel p ps t (by simpa [vSize] using hfuel)

/-- Parsing a rendered nonempty top-level member list recovers it, consuming
the newline, closing indentation and closing brace that follow. -/
theorem pPairsV_round (ind clos : Nat) : ∀ (ps : List (String × JVal)),
    ∀ (l : List Char) (fuel : Nat), ps ≠ [] → docSize ps ≤ fuel →
    pPairsV fuel (pairsVL ind ps ++ ('\n' :: (spacesL clos ++ ('\x7d' :: l)))) = some (ps, l) := by
  intro ps
  induction ps with
  | nil => intro l fuel h _; exact absurd rfl h
  | cons p ps ih =>
    intro l fuel _ hfuel
    rcases p with ⟨k, v⟩
    rcases fuel with _ | f
    · simp [docSize] at hfuel
    have hv : vSize v ≤ f := by simp [docSize] at hfuel; omega
    rcases ps with _ | ⟨p2, ps2⟩
    · simp only [pairsVL, List.append_assoc, List.cons_append, pPairsV,
        pStringTok_ind_jstrL, skipWs_colon, pJVal_sp]
      rw [pJVal_jvalL ind f v _ hv]
      simp only [skipWs_nl, skipWs_spacesL, skipWs_rbrace]
      simp
    · simp only [pairsVL, List.append_assoc, List.cons_append, pPairsV,
        pStringTok_ind_jstrL, skipWs_colon, pJVal_sp]
      rw [pJVal_jvalL ind f v _ hv]
      simp only [skipWs_comma, pPairsV_nl]
      rw [ih l f (by simp) (by simp [docSize] at hfuel ⊢; omega)]
      simp

/-- A rendered string literal has at least its two quotes. -/
theorem jstrL_len (s : String) : 2 ≤ (jstrL s).length := by
  simp [jstrL]

/-- A rendered flat member list is at least as long as its member count. -/
theorem pairsSL_len (ind : Nat) : ∀ ps : List (String × String), ps.length ≤ (pairsSL ind ps).length := by
  intro ps
  induction ps with
  | nil => simp [pairsSL]
  | cons p ps ih =>
    rcases p with ⟨k, v⟩
    rcases ps with _ | ⟨p2, ps2⟩
    · have := jstrL_len k
      simp [pairsSL]
      omega
    · have := jstrL_len k
      simp only [pairsSL, List.length_append, List.length_cons] at ih ⊢
      omega

/-- A rendered value is at least as long as the fuel it needs. -/
theorem jvalL_len (ind : Nat) (v : JVal) : vSize v ≤ (jvalL ind v).length := by
  rcases v with s | ps
  · simp [vSize]
  · rcases ps with _ | ⟨p, ps2⟩
    · simp [vSize]
    · have := pairsSL_len (ind + 2) (p :: ps2)
      simp only [vSize, jvalL, jobjL, List.length_cons, List.length_append] at this ⊢
      omega

/-- A rendered top-level member list is at least as long as its fuel need. -/
theorem pairsVL_len (ind : Nat) : ∀ ps : List (String × JVal), docSize ps ≤ (pairsVL ind ps).length := by
  intro ps
  induction ps with
  | nil => simp [docSize, pairsVL]
  | cons p ps ih =>
    rcases p with ⟨k, v⟩
    rcases ps with _ | ⟨p2, ps2⟩
    · have h1 := jstrL_len k
      have h2 := jvalL_len ind v
      simp only [docSize, pairsVL, List.length_append, List.length_cons]
      omega
    · have h1 := jstrL_len k
      have h2 := jvalL_len ind v
      simp only [docSize, pairsVL, List.length_append, List.length_cons] at ih ⊢
      omega

/-- Parsing the rendered document recovers it: the round trip of
`json.loads` after `json.dumps(..., indent=2)` for any nonempty export
document. -/
theorem loads_dumps (doc : List (String × JVal)) (hne : doc ≠ []) : loads (dumps doc) = some doc := by
  rcases doc with _ | ⟨⟨k, v⟩, ps⟩
  · exact absurd rfl hne
  have hdata : (dumps ((k, v) :: ps)).data =
      '\x7b' :: '\n' :: (pairsVL 2 ((k, v) :: ps) ++ ('\n' :: ['\x7d'])) := by
    simp [dumps, dumpsL]
  obtain ⟨z, hz⟩ := pairsVL_head 2 k v ps ('\n' :: ['\x7d'])
  have hfe : docSize ((k, v) :: ps) ≤
      ('\x7b' :: '\n' :: (pairsVL 2 ((k, v) :: ps) ++ ('\n' :: ['\x7d']))).length := by
    have := pairsVL_len 2 ((k, v) :: ps)
    simp only [List.length_cons, List.length_append]
    omega
  have hround : pPairsV
      (('\x7b' :: '\n' :: (pairsVL 2 ((k, v) :: ps) ++ ('\n' :: ['\x7d']))).length)
      ('\n' :: (pairsVL 2 ((k, v) :: ps) ++ ('\n' :: ['\x7d']))) = some ((k, v) :: ps, []) := by
    rw [pPairsV_nl]
    have hsh : ('\n' :: ['\x7d'] : List Char) = '\n' :: (spacesL 0 ++ ('\x7d' :: [])) := rfl
    rw [hsh]
    exact pPairsV_round 2 0 ((k, v) :: ps) []
      (('\x7b' :: '\n' :: (pairsVL 2 ((k, v) :: ps) ++ ('\n' :: ['\x7d']))).length)
      (by simp) hfe
  rw [loads, hdata, skipWs_lbrace]
  show (match skipWs ('\n' :: (pairsVL 2 ((k, v) :: ps) ++ ('\n' :: ['\x7d']))) with
    | [] => none
    | c2 :: r2 =>
      if c2 = '\x7d' then (if skipWs r2 = [] then some [] else none)
      else
        match pPairsV (('\x7b' :: '\n' :: (pairsVL 2 ((k, v) :: ps) ++ ('\n' :: ['\x7d']))).length)
            ('\n' :: (pairsVL 2 ((k, v) :: ps) ++ ('\n' :: ['\x7d']))) with
        | some (qs, rest) => if skipWs rest = [] then some qs else none
        | none => none) = some ((k, v) :: ps)
  rw [show skipWs ('\n' :: (pairsVL 2 ((k, v) :: ps) ++ ('\n' :: ['\x7d']))) = '"' :: z from by
    rw [skipWs_nl, hz]]
  rw [hround]
  simp [skipWs]

/-! ### Lemmas: the dispatch loop -/

/-- Loop step: the strategy raises, the loop stops with its error. -/
theorem dispatchRun_cons_error {q name : String} {m : Strategy} {l : List (String × Strategy)}
    {e : Err} (h : m.run q = Except.error e) :
    dispatchRun q ((name, m) :: l) = (Except.error e, [(name, q)]) := by
  simp only [dispatchRun]
  rw [h]

/-- Loop step: the strategy returns a dict with no `generation` key, the
subscript raises `KeyError`. -/
theorem dispatchRun_cons_keyErr {q name : String} {m : Strategy} {l : List (String × Strategy)}
    {d : PyDict} (h : m.run q = Except.ok d) (hg : d.lookup "generation" = none) :
    dispatchRun q ((name, m) :: l) = (Except.error (Err.keyError "generation"), [(name, q)]) := by
  simp only [dispatchRun]
  rw [h]
  show (match getGeneration d with
    | Except.error e => (Except.error e, [(name, q)])
    | Except.ok g =>
      match dispatchRun q l with
      | (Except.ok tail, tr) => (Except.ok ((name, g) :: tail), (name, q) :: tr)
      | (Except.error e, tr) => (Except.error e, (name, q) :: tr)) = _
  rw [show getGeneration d = Except.error (Err.keyError "generation") from by
    unfold getGeneration; rw [hg]]

/-- Loop step: the strategy succeeds and its generation is extracted. -/
theorem dispatchRun_cons_ok {q name : String} {m : Strategy} {l : List (String × Strategy)}
    {d : PyDict} {g : String} (h : m.run q = Except.ok d)
    (hg : d.lookup "generation" = some g) :
    dispatchRun q ((name, m) :: l) =
      (match dispatchRun q l with
       | (Except.ok tail, tr) => (Except.ok ((name, g) :: tail), (name, q) :: tr)
       | (Except.error e, tr) => (Except.error e, (name, q) :: tr)) := by
  simp only [dispatchRun]
  rw [h]
  show (match getGeneration d with
    | Except.error e => (Except.error e, [(name, q)])
    | Except.ok g2 =>
      match dispatchRun q l with
      | (Except.ok tail, tr) => (Except.ok ((name, g2) :: tail), (name, q) :: tr)
      | (Except.error e, tr) => (Except.error e, (name, q) :: tr)) = _
  rw [show getGeneration d = Except.ok g from by unfold getGeneration; rw [hg]]

/-- When every strategy honours the contract, the loop returns one entry per
strategy, keys in registration order, values the extracted generations. -/
theorem dispatchRun_ok (q : String) : ∀ (l : List (String × Strategy)),
    (∀ p ∈ l, ∃ d : PyDict, p.2.run q = Except.ok d ∧ (d.lookup "generation").isSome) →
    ∃ rs, (dispatchRun q l).1 = Except.ok rs ∧
      rs.map Prod.fst = l.map Prod.fst ∧
      ∀ i (h1 : i < l.length) (h2 : i < rs.length) (d : PyDict) (g : String),
        (l.get ⟨i, h1⟩).2.run q = Except.ok d → d.lookup "generation" = some g →
        (rs.get ⟨i, h2⟩).2 = g := by
  intro l
  induction l with
  | nil =>
    intro _
    exact ⟨[], rfl, rfl, fun i h1 => absurd h1 (by simp)⟩
  | cons p l ih =>
    intro hall
    obtain ⟨d, hd, hg⟩ := hall p (by simp)
    obtain ⟨g, hg2⟩ := Option.isSome_iff_exists.mp hg
    obtain ⟨rs, hrs, hmap, hpt⟩ := ih (fun p2 hp2 => hall p2 (by simp [hp2]))
    rcases p with ⟨name, m⟩
    rcases hdr : dispatchRun q l with ⟨res, tr⟩
    rw [hdr] at hrs
    simp only at hrs
    subst hrs
    refine ⟨(name, g) :: rs, ?_, ?_, ?_⟩
    · rw [dispatchRun_cons_ok hd hg2, hdr]
    · simp [hmap]
    · intro i h1 h2 d2 g2 hrun hlook
      cases i with
      | zero =>
        simp only [List.get] at hrun ⊢
        rw [hd] at hrun
        injection hrun with hdd
        subst hdd
        rw [hg2] at hlook
        simp only [Option.some.injEq] at hlook
        exact hlook
      | succ j =>
        simp only [List.get] at hrun ⊢
        exact hpt j (by simpa using h1) (by simpa using h2) d2 g2 hrun hlook

/-- When an earlier strategy fails, the loop surfaces exactly that error. -/
theorem dispatchRun_error (q : String) (e : Err) : ∀ (pre : List (String × Strategy))
    (name : String) (m : Strategy) (post : List (String × Strategy)),
    (∀ p ∈ pre, ∃ d : PyDict, p.2.run q = Except.ok d ∧ (d.lookup "generation").isSome) →
    m.run q = Except.error e →
    (dispatchRun q (pre ++ (name, m) :: post)).1 = Except.error e := by
  intro pre
  induction pre with
  | nil =>
    intro name m post _ hm
    rw [List.nil_append, dispatchRun_cons_error hm]
  | cons p pre ih =>
    intro name m post hall hm
    obtain ⟨d, hd, hg⟩ := hall p (by simp)
    obtain ⟨g, hg2⟩ := Option.isSome_iff_exists.mp hg
    rcases p with ⟨name2, m2⟩
    rw [List.cons_append, dispatchRun_cons_ok hd hg2]
    rcases hdr : dispatchRun q (pre ++ (name, m) :: post) with ⟨res, tr⟩
    have hres : res = Except.error e := by
      have hih := ih name m post (fun p2 hp2 => hall p2 (by simp [hp2])) hm
      rw [hdr] at hih
      exact hih
    subst hres
    rfl

/-- Every invocation the loop makes passes the query through verbatim. -/
theorem dispatchRun_trace (q : String) : ∀ (l : List (String × Strategy)),
    ∀ p ∈ (dispatchRun q l).2, p.2 = q := by
  intro l
  induction l with
  | nil => simp [dispatchRun]
  | cons p l ih =>
    rcases p with ⟨name, m⟩
    rcases hr : m.run q with e | d
    · rw [dispatchRun_cons_error hr]
      simp
    · rcases hgg : List.lookup "generation" d with _ | g
      · rw [dispatchRun_cons_keyErr hr hgg]
        simp
      · rw [dispatchRun_cons_ok hr hgg]
        rcases hdr : dispatchRun q l with ⟨res, tr⟩
        have htr : ∀ p3 ∈ tr, p3.2 = q := by
          intro p3 hp3
          apply ih
          rw [hdr]
          exact hp3
        rcases res with e3 | tail
        · intro p2 hp2
          simp at hp2
          rcases hp2 with hp2 | hp2
          · rw [hp2]
          · exact htr p2 hp2
        · intro p2 hp2
          simp at hp2
          rcases hp2 with hp2 | hp2
          · rw [hp2]
          · exact htr p2 hp2

/-! ### Lemmas: timestamp formatting -/

/-- One digit renders one character. -/
theorem natDigits_len1 (n : Nat) (h : n < 10) : (natDigits n).length = 1 := by
  rw [natDigits]
  simp [h]

/-- Two digits render two characters. -/
theorem natDigits_len2 (n : Nat) (h1 : 10 ≤ n) (h2 : n < 100) : (natDigits n).length = 2 := by
  rw [natDigits]
  have hn : ¬n < 10 := by omega
  simp [hn, natDigits_len1 (n / 10) (by omega)]

/-- Three digits render three characters. -/
theorem natDigits_len3 (n : Nat) (h1 : 100 ≤ n) (h2 : n < 1000) : (natDigits n).length = 3 := by
  rw [natDigits]
  have hn : ¬n < 10 := by omega
  simp [hn, natDigits_len2 (n / 10) (by omega) (by omega)]

/-- Four digits render four characters. -/
theorem natDigits_len4 (n : Nat) (h1 : 1000 ≤ n) (h2 : n < 10000) : (natDigits n).length = 4 := by
  rw [natDigits]
  have hn : ¬n < 10 := by omega
  simp [hn, natDigits_len3 (n / 10) (by omega) (by omega)]

/-- Rendering a number has as many characters as digits. -/
theorem natStr_len (n : Nat) : (natStr n).length = (natDigits n).length := rfl

/-- A two-digit field always has length two for in-range values. -/
theorem two_digit_len (n : Nat) (h : n ≤ 99) : (two_digit n).length = 2 := by
  rw [two_digit]
  by_cases h10 : n < 10
  · rw [if_pos h10, String.length_append, natStr_len, natDigits_len1 n h10]
    rfl
  · rw [if_neg h10, natStr_len, natDigits_len2 n (by omega) (by omega)]

/-- A four-digit field always has length four for in-range values. -/
theorem four_digit_len (n : Nat) (h : n ≤ 9999) : (four_digit n).length = 4 := by
  rw [four_digit]
  by_cases h10 : n < 10
  · rw [if_pos h10, String.length_append, natStr_len, natDigits_len1 n h10]
    rfl
  · rw [if_neg h10]
    by_cases h100 : n < 100
    · rw [if_pos h100, String.length_append, natStr_len, natDigits_len2 n (by omega) h100]
      rfl
    · rw [if_neg h100]
      by_cases h1000 : n < 1000
      · rw [if_pos h1000, String.length_append, natStr_len, natDigits_len3 n (by omega) h1000]
        rfl
      · rw [if_neg h1000, natStr_len, natDigits_len4 n (by omega) (by omega)]

/-! ### The claims -/

/-- C1: for every query that is non-empty after stripping and a registry of
contract-honouring strategies, dispatch returns a ResultSet with exactly the
registered names as keys, in registration order, one entry per strategy,
each value the `generation` field of that strategy's `run(query)` result. -/
theorem dispatch_complete_in_order (q : String) (registry : List (String × Strategy))
    (hq : ¬py_strip q = "")
    (hok : ∀ p ∈ registry, ∃ d : PyDict,
      p.2.run q = Except.ok d ∧ (d.lookup "generation").isSome) :
    ∃ rs, (dispatch q registry).1 = Except.ok rs ∧
      rs.map Prod.fst = registry.map Prod.fst ∧
      ∀ i (h1 : i < registry.length) (h2 : i < rs.length) (d : PyDict) (g : String),
        (registry.get ⟨i, h1⟩).2.run q = Except.ok d → d.lookup "generation" = some g →
        (rs.get ⟨i, h2⟩).2 = g := by
  rw [dispatch, if_neg hq]
  exact dispatchRun_ok q registry hok

/-- Witness for C1 at the scenario query and the three-stub registry. -/
theorem dispatch_complete_in_order_witness :
    ¬py_strip "What is gradient descent?" = "" ∧
    ∃ rs, (dispatch "What is gradient descent?" demo_registry).1 = Except.ok rs ∧
      rs.map Prod.fst = demo_registry.map Prod.fst ∧
      ∀ i (h1 : i < demo_registry.length) (h2 : i < rs.length) (d : PyDict) (g : String),
        (demo_registry.get ⟨i, h1⟩).2.run "What is gradient descent?" = Except.ok d →
        d.lookup "generation" = some g → (rs.get ⟨i, h2⟩).2 = g :=
  ⟨by decide, dispatch_complete_in_order "What is gradient descent?" demo_registry (by decide)
    (by
      intro p hp
      simp only [demo_registry, List.mem_cons, List.not_mem_nil, or_false] at hp
      rcases hp with rfl | rfl | rfl <;> exact ⟨_, rfl, by decide⟩)⟩

/-- C2: if a strategy raises during dispatch of a non-blank query while all
earlier strategies succeeded, the whole dispatch aborts with that same
error, and the stored results and query are left untouched. -/
theorem dispatch_fail_fast (q : String) (pre post : List (String × Strategy)) (name : String)
    (m : Strategy) (e : Err) (s : SessionState)
    (hq : ¬py_strip q = "")
    (hpre : ∀ p ∈ pre, ∃ d : PyDict,
      p.2.run q = Except.ok d ∧ (d.lookup "generation").isSome)
    (hm : m.run q = Except.error e) :
    (dispatch q (pre ++ (name, m) :: post)).1 = Except.error e ∧
    (run_all_models q (pre ++ (name, m) :: post) s).2 = Except.error e ∧
    (run_all_models q (pre ++ (name, m) :: post) s).1.results = s.results ∧
    (run_all_models q (pre ++ (name, m) :: post) s).1.query = s.query := by
  have herr := dispatchRun_error q e pre name m post hpre hm
  refine ⟨?_, ?_⟩
  · rw [dispatch, if_neg hq]
    exact herr
  rw [run_all_models, if_neg hq]
  rcases hdr : dispatchRun q (pre ++ (name, m) :: post) with ⟨res, tr⟩
  rw [hdr] at herr
  simp only at herr
  subst herr
  exact ⟨rfl, rfl, rfl⟩

/-- Witness for C2: the middle stub raises while an earlier-used session
state holds old results; the error surfaces and the old state survives. -/
theorem dispatch_fail_fast_witness :
    ¬py_strip "why?" = "" ∧
    (dispatch "why?" [("A", okStrategy "alpha"), ("B", failStrategy (Err.exc "boom")),
      ("C", okStrategy "gamma")]).1 = Except.error (Err.exc "boom") ∧
    (run_all_models "why?" [("A", okStrategy "alpha"), ("B", failStrategy (Err.exc "boom")),
      ("C", okStrategy "gamma")] ⟨some "old", some [("A", "old answer")], some "old"⟩).1.results =
      some [("A", "old answer")] :=
  ⟨by decide,
    (dispatch_fail_fast "why?" [("A", okStrategy "alpha")] [("C", okStrategy "gamma")] "B"
      (failStrategy (Err.exc "boom")) (Err.exc "boom")
      ⟨some "old", some [("A", "old answer")], some "old"⟩ (by decide)
      (by
        intro p hp
        simp only [List.mem_singleton] at hp
        subst hp
        exact ⟨_, rfl, by decide⟩) rfl).1,
    (dispatch_fail_fast "why?" [("A", okStrategy "alpha")] [("C", okStrategy "gamma")] "B"
      (failStrategy (Err.exc "boom")) (Err.exc "boom")
      ⟨some "old", some [("A", "old answer")], some "old"⟩ (by decide)
      (by
        intro p hp
        simp only [List.mem_singleton] at hp
        subst hp
        exact ⟨_, rfl, by decide⟩) rfl).2.2.1⟩

/-- C3: a query that is empty after stripping is rejected with
`InvalidQuery`, no strategy is invoked (empty invocation trace), and the
session state is entirely unchanged. -/
theorem dispatch_rejects_blank_query (q : String) (registry : List (String × Strategy))
    (s : SessionState) (hq : py_strip q = "") :
    dispatch q registry = (Except.error Err.invalidQuery, []) ∧
    run_all_models q registry s = (s, Except.error Err.invalidQuery) := by
  refine ⟨?_, ?_⟩
  · rw [dispatch, if_pos hq]
  · rw [run_all_models, if_pos hq]

/-- Witness for C3 at the empty query, the ASCII-whitespace-only query, and
a query of Unicode whitespace only (no-break space and line separator). -/
theorem dispatch_rejects_blank_query_witness :
    py_strip "   " = "" ∧
    dispatch "   " demo_registry = (Except.error Err.invalidQuery, []) ∧
    run_all_models "" demo_registry demo_state = (demo_state, Except.error Err.invalidQuery) ∧
    dispatch (String.mk [Char.ofNat 0xa0, Char.ofNat 0x2028]) demo_registry =
      (Except.error Err.invalidQuery, []) :=
  ⟨by decide,
    (dispatch_rejects_blank_query "   " demo_registry demo_state (by decide)).1,
    (dispatch_rejects_blank_query "" demo_registry demo_state (by decide)).2,
    (dispatch_rejects_blank_query (String.mk [Char.ofNat 0xa0, Char.ofNat 0x2028]) demo_registry
      demo_state (by decide)).1⟩

/-- C9: stripping is used only for the emptiness check: every strategy
invocation receives the original query verbatim, and on success the stored
`user_input` and `query` keep the original, untrimmed string. -/
theorem dispatch_passes_untrimmed_query (q : String) (registry : List (String × Strategy))
    (s : SessionState) (hq : ¬py_strip q = "") :
    (∀ p ∈ (dispatch q registry).2, p.2 = q) ∧
    (∀ rs, (run_all_models q registry s).2 = Except.ok rs →
      (run_all_models q registry s).1.user_input = some q ∧
      (run_all_models q registry s).1.query = some q) := by
  refine ⟨?_, ?_⟩
  · rw [dispatch, if_neg hq]
    exact dispatchRun_trace q registry
  · rw [run_all_models, if_neg hq]
    rcases hdr : dispatchRun q registry with ⟨res, tr⟩
    rcases res with e | rs2
    · intro rs h
      exact absurd h (by simp)
    · intro rs _
      exact ⟨rfl, rfl⟩

/-- Witness for C9 at a query with surrounding whitespace. -/
theorem dispatch_passes_untrimmed_query_witness :
    ¬py_strip "  padded query  " = "" ∧
    (∀ p ∈ (dispatch "  padded query  " demo_registry).2, p.2 = "  padded query  ") ∧
    (∀ rs, (run_all_models "  padded query  " demo_registry demo_state).2 = Except.ok rs →
      (run_all_models "  padded query  " demo_registry demo_state).1.user_input =
        some "  padded query  " ∧
      (run_all_models "  padded query  " demo_registry demo_state).1.query =
        some "  padded query  ") :=
  ⟨by decide,
    (dispatch_passes_untrimmed_query "  padded query  " demo_registry demo_state (by decide)).1,
    (dispatch_passes_untrimmed_query "  padded query  " demo_registry demo_state (by decide)).2⟩

/-- C4: the memoizing wrappers are idempotent: for any constructor, the
first call constructs and stores, the second call returns the identical
stored object with no reconstruction, and the constructor has run exactly
once; in particular the cached registry accessor behaves this way. -/
theorem cache_constructs_once {α : Type} (construct : Unit → α) :
    (cache_call construct cache_init).1 = construct () ∧
    (cache_call construct cache_init).2.constructions = 1 ∧
    (cache_call construct (cache_call construct cache_init).2).1 =
      (cache_call construct cache_init).1 ∧
    (cache_call construct (cache_call construct cache_init).2).2 =
      (cache_call construct cache_init).2 ∧
    (cache_call construct (cache_call construct cache_init).2).2.constructions = 1 ∧
    (get_registry (get_registry cache_init).2).1 = (get_registry cache_init).1 ∧
    (get_registry (get_registry cache_init).2).2.constructions = 1 :=
  ⟨rfl, rfl, rfl, rfl, rfl, rfl, rfl⟩

/-- C5: serializing the export record and parsing it back as JSON yields an
object whose `query` field is the original query and whose `results` field
is the original ResultSet, field for field. -/
theorem export_roundtrip (q : String) (rs : List (String × String)) (t : Tm) :
    loads (serialize_export (export_data q rs t)) = some (export_data q rs t) ∧
    (export_data q rs t).lookup "query" = some (JVal.str q) ∧
    (export_data q rs t).lookup "results" = some (JVal.obj rs) := by
  refine ⟨?_, ?_, ?_⟩
  · rw [serialize_export]
    exact loads_dumps _ (by simp [export_data])
  · rfl
  · rfl

/-- C6: sampling a nonempty dataset yields an index inside `[0, rowCount)`
together with the `Question` of that row, every index is reachable, and
sampling an empty dataset fails. -/
theorem sample_in_range (dataset : List Row) (seed : Nat) :
    (dataset.length = 0 → get_random_question dataset seed = none) ∧
    (0 < dataset.length →
      ∃ (idx : Nat) (h : idx < dataset.length),
        get_random_question dataset seed = some ((dataset.get ⟨idx, h⟩).Question, idx)) ∧
    (∀ i, i < dataset.length → ∃ s2 : Nat, ∃ (h : i < dataset.length),
      get_random_question dataset s2 = some ((dataset.get ⟨i, h⟩).Question, i)) := by
  refine ⟨?_, ?_, ?_⟩
  · intro h0
    simp [get_random_question, np_random_randint, h0]
  · intro hpos
    have hidx : seed % dataset.length < dataset.length := Nat.mod_lt _ hpos
    refine ⟨seed % dataset.length, hidx, ?_⟩
    rw [get_random_question]
    rw [show np_random_randint 0 dataset.length seed = some (seed % dataset.length) from by
      rw [np_random_randint, if_pos hpos]
      simp]
    show (match dataset.get? (seed % dataset.length) with
      | some row => some (row.Question, seed % dataset.length)
      | none => none) =
      some ((dataset.get ⟨seed % dataset.length, hidx⟩).Question, seed % dataset.length)
    rw [List.get?_eq_get hidx]
  · intro i hi
    refine ⟨i, hi, ?_⟩
    rw [get_random_question]
    rw [show np_random_randint 0 dataset.length i = some i from by
      rw [np_random_randint, if_pos (by omega)]
      simp [Nat.mod_eq_of_lt hi]]
    show (match dataset.get? i with
      | some row => some (row.Question, i)
      | none => none) = some ((dataset.get ⟨i, hi⟩).Question, i)
    rw [List.get?_eq_get hi]

/-- Witness for C6 at a two-row dataset and the empty dataset. -/
theorem sample_in_range_witness :
    get_random_question ([] : List Row) 7 = none ∧
    (∃ (idx : Nat) (h : idx < ([⟨"q0"⟩, ⟨"q1"⟩] : List Row).length),
      get_random_question [⟨"q0"⟩, ⟨"q1"⟩] 7 =
        some ((([⟨"q0"⟩, ⟨"q1"⟩] : List Row).get ⟨idx, h⟩).Question, idx)) ∧
    (∃ s2 : Nat, ∃ (h : 1 < ([⟨"q0"⟩, ⟨"q1"⟩] : List Row).length),
      get_random_question [⟨"q0"⟩, ⟨"q1"⟩] s2 =
        some ((([⟨"q0"⟩, ⟨"q1"⟩] : List Row).get ⟨1, h⟩).Question, 1)) :=
  ⟨(sample_in_range [] 7).1 rfl,
   (sample_in_range [⟨"q0"⟩, ⟨"q1"⟩] 7).2.1 (by decide),
   (sample_in_range [⟨"q0"⟩, ⟨"q1"⟩] 7).2.2 1 (by decide)⟩

/-- C7: registry construction builds the Pinecone backend handle exactly
once, and BasicRAG, CRAG and SelfRAG all hold that one handle. -/
theorem registry_shares_backend_handle :
    ∃ h : PineConeHandler,
      (∃ bf : BasicFlow, (load_models_impl []).1.lookup "BasicRAG" = some (Model.basic bf) ∧
        bf.pinecone_handler = h) ∧
      (∃ cf : CragFlow, (load_models_impl []).1.lookup "CRAG" = some (Model.crag cf) ∧
        cf.pinecone_handler = h) ∧
      (∃ sf : SelfFlow, (load_models_impl []).1.lookup "SelfRAG" = some (Model.selfRag sf) ∧
        sf.pinecone_handler = h) ∧
      ((load_models_impl []).2.count "PineConeHandler" = 1) :=
  ⟨⟨"clgevents", 0⟩,
    ⟨⟨⟨"clgevents", 0⟩, 2⟩, by decide, rfl⟩,
    ⟨⟨⟨"clgevents", 0⟩, 3⟩, by decide, rfl⟩,
    ⟨⟨⟨"clgevents", 0⟩, 1⟩, by decide, rfl⟩,
    by decide⟩

/-- C8: the export serializes with top-level key order `query`, `results`,
`timestamp`; the timestamp is the build-time clock value formatted as
`YYYY-MM-DD HH:MM:SS` (serialization takes no clock), with two-digit
zero-padded fields and a fixed 19-character layout for in-range times. -/
theorem export_key_order_and_build_time_timestamp (q : String) (rs : List (String × String))
    (t : Tm) (hy : t.tm_year ≤ 9999) (hmo : t.tm_mon ≤ 99) (hd : t.tm_mday ≤ 99)
    (hh : t.tm_hour ≤ 99) (hmi : t.tm_min ≤ 99) (hs : t.tm_sec ≤ 99) :
    loads (serialize_export (export_data q rs t)) =
      some [("query", JVal.str q), ("results", JVal.obj rs),
        ("timestamp", JVal.str (strftime_Y_m_d_H_M_S t))] ∧
    (export_data q rs t).map Prod.fst = ["query", "results", "timestamp"] ∧
    (∃ y mo d h mi s : String,
      strftime_Y_m_d_H_M_S t = y ++ "-" ++ mo ++ "-" ++ d ++ " " ++ h ++ ":" ++ mi ++ ":" ++ s ∧
      y.length = 4 ∧ mo.length = 2 ∧ d.length = 2 ∧ h.length = 2 ∧ mi.length = 2 ∧
      s.length = 2) ∧
    (strftime_Y_m_d_H_M_S t).length = 19 := by
  refine ⟨?_, rfl, ?_, ?_⟩
  · rw [serialize_export]
    exact loads_dumps _ (by simp [export_data])
  · exact ⟨four_digit t.tm_year, two_digit t.tm_mon, two_digit t.tm_mday, two_digit t.tm_hour,
      two_digit t.tm_min, two_digit t.tm_sec, rfl, four_digit_len _ hy, two_digit_len _ hmo,
      two_digit_len _ hd, two_digit_len _ hh, two_digit_len _ hmi, two_digit_len _ hs⟩
  · rw [strftime_Y_m_d_H_M_S]
    simp only [String.length_append, four_digit_len _ hy, two_digit_len _ hmo,
      two_digit_len _ hd, two_digit_len _ hh, two_digit_len _ hmi, two_digit_len _ hs]
    rfl

/-- Witness for C8 at a concrete record and clock value. -/
theorem export_key_order_witness :
    loads (serialize_export (export_data "q?" [("BasicRAG", "ans")] ⟨2026, 10, 12, 3, 4, 5⟩)) =
      some [("query", JVal.str "q?"), ("results", JVal.obj [("BasicRAG", "ans")]),
        ("timestamp", JVal.str (strftime_Y_m_d_H_M_S ⟨2026, 10, 12, 3, 4, 5⟩))] ∧
    (strftime_Y_m_d_H_M_S ⟨2026, 10, 12, 3, 4, 5⟩).length = 19 :=
  ⟨(export_key_order_and_build_time_timestamp "q?" [("BasicRAG", "ans")]
      ⟨2026, 10, 12, 3, 4, 5⟩ (by decide) (by decide) (by decide) (by decide) (by decide)
      (by decide)).1,
   (export_key_order_and_build_time_timestamp "q?" [("BasicRAG", "ans")]
      ⟨2026, 10, 12, 3, 4, 5⟩ (by decide) (by decide) (by decide) (by decide) (by decide)
      (by decide)).2.2.2⟩

/-- C10: the AdaptiveRAG entry wraps the very SelfFlow instance registered
as SelfRAG — the same constructed object, not a second construction. -/
theorem adaptive_wraps_registered_selfrag :
    ∃ (sf : SelfFlow) (af : AdaptiveFlow),
      (load_models_impl []).1.lookup "AdaptiveRAG" = some (Model.adaptive af) ∧
      (load_models_impl []).1.lookup "SelfRAG" = some (Model.selfRag sf) ∧
      af.self_rag = sf :=
  ⟨⟨⟨"clgevents", 0⟩, 1⟩, ⟨⟨⟨"clgevents", 0⟩, 1⟩, 4⟩, by decide, by decide, rfl⟩
